import Mathlib

/-!
Verification of the Tracker_Live backend (final server version in
`backend/server.js`): the draft/publish/discard workflow over the two
JSON documents `data.json` (published) and `draft.json`, and the log
lifecycle operations on the `logs` array.

The JSON documents handled by the server are modelled by the inductive
type `Json` below; objects keep their key insertion order, exactly as
`JSON.parse` produces them and `JSON.stringify` re-serializes them.
Numbers are modelled as integers (every number occurring in the system
is an integer timestamp or count).
-/

namespace TrackerLive

/-- A JSON value as `JSON.parse` yields it: object fields keep their key
insertion order. -/
inductive Json where
  | null
  | bool (b : Bool)
  | num (n : Int)
  | str (s : String)
  | arr (elems : List Json)
  | obj (fields : List (String × Json))

/-- The empty Snapshot `{groups:[],logs:[]}`, the parse of the default
literal used by `loadData`/`loadDraft`. -/
def emptySnapshot : Json :=
  .obj [("groups", .arr []), ("logs", .arr [])]

mutual
/-- Compact `JSON.stringify` (no indent argument), as used by the
`/api/draft-status` handler on the re-parsed documents.  String escaping
is elided: every string in this development is escape-free. -/
def jsonStr : Json → String
  | .null => "null"
  | .bool true => "true"
  | .bool false => "false"
  | .num n => toString n
  | .str s => "\"" ++ s ++ "\""
  | .arr xs => "[" ++ jsonStrList xs ++ "]"
  | .obj fs => "\x7b" ++ jsonStrFields fs ++ "\x7d"

def jsonStrList : List Json → String
  | [] => ""
  | [x] => jsonStr x
  | x :: y :: xs => jsonStr x ++ "," ++ jsonStrList (y :: xs)

def jsonStrFields : List (String × Json) → String
  | [] => ""
  | [(k, v)] => "\"" ++ k ++ "\":" ++ jsonStr v
  | (k, v) :: f :: fs => "\"" ++ k ++ "\":" ++ jsonStr v ++ "," ++ jsonStrFields (f :: fs)
end

mutual
/-- Structural equality of two JSON documents in the sense of the spec:
same groups and logs with equal field values, insensitive to the key
insertion order of objects.  This definition follows the wording of the spec
(the source has no such comparison); it is the claim-side notion against
which the string comparison of the code is checked. -/
def structEq : Json → Json → Bool
  | .null, .null => true
  | .bool a, .bool b => a == b
  | .num a, .num b => a == b
  | .str a, .str b => a == b
  | .arr xs, .arr ys => structEqList xs ys
  | .obj fs, .obj gs => fs.length == gs.length && fieldsIncl fs gs && fieldsIncl gs fs
  | _, _ => false
termination_by a b => sizeOf a + sizeOf b

def structEqList : List Json → List Json → Bool
  | [], [] => true
  | x :: xs, y :: ys => structEq x y && structEqList xs ys
  | _, _ => false
termination_by xs ys => sizeOf xs + sizeOf ys

/-- Every field of the first list has a structurally equal value under
the same key in the second list. -/
def fieldsIncl : List (String × Json) → List (String × Json) → Bool
  | [], _ => true
  | (k, v) :: fs, gs => keyVal k v gs && fieldsIncl fs gs
termination_by fs gs => sizeOf fs + sizeOf gs

/-- The first binding of key `k` in the list has a value structurally
equal to `v`. -/
def keyVal : String → Json → List (String × Json) → Bool
  | _, _, [] => false
  | k, v, (k2, v2) :: gs => if k == k2 then structEq v v2 else keyVal k v gs
termination_by _ v gs => sizeOf v + sizeOf gs
end

/-- Field access `doc.key` on a parsed JSON value: `none` models the
JavaScript `undefined` (non-object receiver or absent key). -/
def getField (j : Json) (k : String) : Option Json :=
  match j with
  | .obj fs => fs.lookup k
  | _ => none

/-- JavaScript truthiness of a parsed JSON value. -/
def jsTruthy : Json → Bool
  | .null => false
  | .bool b => b
  | .num n => n != 0
  | .str s => s != ""
  | .arr _ => true
  | .obj _ => true

/-- Models `Array.isArray` on a possibly absent field value. -/
def isArrayOpt : Option Json → Bool
  | some (.arr _) => true
  | _ => false

/-!
## Persistent document state

`loadData`/`loadDraft`/`saveData`/`saveDraft` read and write the files
`data.json` and `draft.json`.  A file is modelled by what it contributes
to the loaders: it is missing or unreadable (so `fs.readFileSync`
throws), readable with non-empty content that `JSON.parse` rejects,
readable with empty content (the empty string is falsy, so the loaders
parse the default literal instead), or readable with content that
parses to a document.  A loader never sees anything else.
-/

/-- The observable state of one backing file. -/
inductive DocFile where
  | absent
  | invalid
  | empty
  | json (doc : Json)

/-- The two documents of the draft/publish workflow: `data.json`
(published) and `draft.json`. -/
structure St where
  dataFile : DocFile
  draftFile : DocFile

/-- Function `loadData()`: read `data.json`; `JSON.parse(raw || defaultLiteral)`;
on any read or parse error return `{groups:[],logs:[]}`. -/
def loadData (s : St) : Json :=
  match s.dataFile with
  | .absent => emptySnapshot
  | .invalid => emptySnapshot
  | .empty => emptySnapshot
  | .json d => d

/-- Function `loadDraft()`: read `draft.json`; `JSON.parse(raw || defaultLiteral)`;
on a read or parse error fall back to `loadData()`.  An empty file takes
the `raw || defaultLiteral` short-circuit, so it parses the default
literal and does NOT fall back. -/
def loadDraft (s : St) : Json :=
  match s.draftFile with
  | .absent => loadData s
  | .invalid => loadData s
  | .empty => emptySnapshot
  | .json d => d

/-- Handler of `GET /api/draft-status`: `JSON.stringify(loadData()) !==
JSON.stringify(loadDraft())`. -/
def hasChanges (s : St) : Bool :=
  jsonStr (loadData s) != jsonStr (loadDraft s)

/-- Handler of `POST /api/publish`: `saveData(loadDraft())`.  The file then holds
the serialization of the draft document, which parses back to it. -/
def publishOp (s : St) : St :=
  { s with dataFile := .json (loadDraft s) }

/-- Handler of `POST /api/discard`: `saveDraft(loadData())`. -/
def discardOp (s : St) : St :=
  { s with draftFile := .json (loadData s) }

/-- Handler of `POST /api/save`: reject with 400 unless the body is truthy and its
`groups` and `logs` fields are arrays; otherwise `saveDraft(body)`.
Returns the state after the request and whether it succeeded (`false`
means the 400 ValidationError response; the state is then untouched
because the handler returns before any write). -/
def saveRoute (body : Json) (s : St) : St × Bool :=
  if !jsTruthy body || !isArrayOpt (getField body "groups")
      || !isArrayOpt (getField body "logs") then
    (s, false)
  else
    ({ s with draftFile := .json body }, true)

/-!
## File-system traces of the save primitives

For the atomicity claim the relevant observable is the sequence of
file-system mutations a save performs, not the resulting document.
`saveData`/`saveDraft` are single `fs.writeFileSync` calls.  The model
elides the `null, 2` pretty-printing argument of `JSON.stringify`
(indentation is irrelevant to every property here). -/

/-- One file-system mutation. -/
inductive FsAction where
  | write (path content : String)
  | rename (src dst : String)
  deriving DecidableEq

/-- Path of the published document (`DATA_DIR/data.json`). -/
def dataFilePath : String := "/data/data.json"

/-- Path of the draft document (`DATA_DIR/draft.json`). -/
def draftFilePath : String := "/data/draft.json"

/-- Function `saveData(data)`: `fs.writeFileSync(DATA_FILE, JSON.stringify(data, null, 2))`. -/
def saveDataTrace (doc : Json) : List FsAction :=
  [.write dataFilePath (jsonStr doc)]

/-- Function `saveDraft(data)`: `fs.writeFileSync(DRAFT_FILE, JSON.stringify(data, null, 2))`. -/
def saveDraftTrace (doc : Json) : List FsAction :=
  [.write draftFilePath (jsonStr doc)]

/-- Effect of one file-system action on a map from paths to contents. -/
def applyAction (fs : String → Option String) : FsAction → String → Option String
  | .write p c => fun q => if q = p then some c else fs q
  | .rename src dst => fun q =>
      if q = dst then fs src else if q = src then none else fs q

/-- Effect of a trace, first action first. -/
def applyTrace (fs : String → Option String) : List FsAction → String → Option String
  | [] => fs
  | a :: as => applyTrace (applyAction fs a) as

/-- The write pattern the claim describes: write the content to a
temporary location, then rename that location onto the final path. -/
def atomicWritePattern (finalPath : String) (tr : List FsAction) : Prop :=
  ∃ tmp c, tmp ≠ finalPath ∧ tr = [.write tmp c, .rename tmp finalPath]

/-!
## Log entries and the log lifecycle operations

Log entries are JSON objects whose fields the route handlers read; per
the data model, `ts` is a number or a string, and `date`, `type`,
`group` are strings, each possibly absent.  `none` models an absent
field (JavaScript `undefined`).
-/

/-- A `ts` value: a JSON number or string. -/
inductive TsVal where
  | num (n : Int)
  | str (s : String)
  deriving DecidableEq, Repr

/-- A log entry as the handlers see it. -/
structure LogEntry where
  ts : Option TsVal := none
  date : Option String := none
  type : Option String := none
  group : Option String := none
  deriving DecidableEq, Repr

/-- JavaScript `String(l.ts)`: an absent field prints as `"undefined"`. -/
def tsString : Option TsVal → String
  | none => "undefined"
  | some (.num n) => toString n
  | some (.str s) => s

/-- JavaScript truthiness of a possibly absent string field. -/
def strTruthy : Option String → Bool
  | none => false
  | some s => s != ""

/-- Model of `s.toLowerCase()`, written via the character list so that concrete
instances compute (the strings of the server are ASCII). -/
def lowerStr (s : String) : String :=
  String.mk (s.data.map Char.toLower)

/-- Model of `x.toLowerCase()` mapped over a possibly absent string. -/
def optLower (o : Option String) : Option String :=
  o.map lowerStr

/-- Handler of `DELETE /api/logs/:ts`: keep the entries with
`String(l.ts) !== String(ts)` (the route parameter is already a string),
return the new logs and `before - after`. -/
def deleteByTimestamp (ts : String) (logs : List LogEntry) : List LogEntry × Nat :=
  let kept := logs.filter (fun l => tsString l.ts != ts)
  (kept, logs.length - kept.length)

/-- Handler of `DELETE /api/logs/:groupName`: keep the entries with
`log.group.toLowerCase() !== groupName.toLowerCase()`.  The member
access `log.group.toLowerCase()` is unguarded, so the filter callback
throws a TypeError as soon as it reaches an entry whose `group` is
absent; the handler then produces no result (modelled by `.error`). -/
def deleteByGroup (groupName : String) (logs : List LogEntry) :
    Except Unit (List LogEntry × Nat) :=
  if logs.any (fun l => l.group == none) then
    .error ()
  else
    let kept := logs.filter (fun l => optLower l.group != some (lowerStr groupName))
    .ok (kept, logs.length - kept.length)

/-- The filter callback of `DELETE /api/logs/:groupName/:date`, returning
`true` when the entry is kept, translated condition for condition from
the handler. -/
def gadKeep (groupName date : String) (l : LogEntry) : Bool :=
  if l.date != some date then true
  else if l.type == some "group-create" || l.type == some "group-delete" then false
  else if strTruthy l.group && optLower l.group == some (lowerStr groupName) then false
  else if !strTruthy l.group || optLower l.group == some "unknowngroup" then false
  else true

/-- Handler of `DELETE /api/logs/:groupName/:date`: filter with `gadKeep`, return
the new logs and `before - after`. -/
def deleteByGroupAndDate (groupName date : String) (logs : List LogEntry) :
    List LogEntry × Nat :=
  let kept := logs.filter (gadKeep groupName date)
  (kept, logs.length - kept.length)

/-- Handler of `POST /api/logs`: reject with 400 when `date` or `type` is falsy
(the body itself, an object, is always truthy); otherwise push the entry
onto the end of the logs. -/
def appendLog (entry : LogEntry) (logs : List LogEntry) :
    Except Unit (List LogEntry) :=
  if !strTruthy entry.date || !strTruthy entry.type then
    .error ()
  else
    .ok (logs ++ [entry])

/-- The normalized `ts` identities of a logs sequence. -/
def tsKeys (logs : List LogEntry) : List String :=
  logs.map (fun l => tsString l.ts)

/-- The uniqueness invariant: pairwise distinct normalized `ts`
identities. -/
def TsDistinct (logs : List LogEntry) : Prop :=
  (tsKeys logs).Nodup

instance (logs : List LogEntry) : Decidable (TsDistinct logs) := by
  unfold TsDistinct; infer_instance

/-!
## The `ts` identity inside whole JSON documents

The snapshot-level operations (`saveRoute`, `publishOp`, `discardOp`)
move whole documents, so the `ts`-uniqueness invariant has to be read
off a `Json` document as well.  `jsToString` models the JavaScript
`String(x)` conversion on parsed JSON values (an array prints as its
elements joined by commas, with `null` elements printing empty; an
object prints as `[object Object]`). -/

mutual
def jsToString : Json → String
  | .null => "null"
  | .bool true => "true"
  | .bool false => "false"
  | .num n => toString n
  | .str s => s
  | .arr xs => jsArrToString xs
  | .obj _ => "[object Object]"

def jsArrToString : List Json → String
  | [] => ""
  | [x] => jsElemToString x
  | x :: y :: xs => jsElemToString x ++ "," ++ jsArrToString (y :: xs)

def jsElemToString : Json → String
  | .null => ""
  | .bool true => "true"
  | .bool false => "false"
  | .num n => toString n
  | .str s => s
  | .arr xs => jsArrToString xs
  | .obj _ => "[object Object]"
end

/-- JavaScript `String(x)` where `x` may be `undefined`. -/
def jsToStringOpt : Option Json → String
  | none => "undefined"
  | some j => jsToString j

/-- The elements of the `logs` field of a document (empty when the field is
not an array). -/
def logsOf (doc : Json) : List Json :=
  match getField doc "logs" with
  | some (.arr xs) => xs
  | _ => []

/-- The normalized `ts` identities of the logs of a document. -/
def tsKeysJson (doc : Json) : List String :=
  (logsOf doc).map (fun entry => jsToStringOpt (getField entry "ts"))

/-- The uniqueness invariant read off a whole document. -/
def TsDistinctJson (doc : Json) : Prop :=
  (tsKeysJson doc).Nodup

/-!
## Route dispatch for `DELETE /api/logs/...`

Express matches a request against the routes in registration order and
runs the first one whose pattern matches the path.  Each of the three
DELETE routes under `/api/logs` is a sequence of parameter segments, so
a pattern matches exactly the paths with that number of segments.
Registration order in the source: `:ts` (line 173), `:groupName`
(line 191), `:groupName/:date` (line 210). -/

/-- The three registered handlers. -/
inductive LogsDelHandler where
  | byTs
  | byGroup
  | byGroupAndDate
  deriving DecidableEq, Repr

/-- The DELETE routes under `/api/logs` in registration order, each with
the number of path segments its pattern consumes. -/
def logsDeleteRoutes : List (Nat × LogsDelHandler) :=
  [(1, .byTs), (1, .byGroup), (2, .byGroupAndDate)]

/-- First-match dispatch on the path segments after `/api/logs/`. -/
def dispatchLogsDelete (segs : List String) : Option LogsDelHandler :=
  (logsDeleteRoutes.find? (fun r => r.1 == segs.length)).map (fun r => r.2)

/-- A DELETE request under `/api/logs/` applied to the published logs:
dispatch, then run the selected handler on the logs.  `none` when no
route matches or the handler faults. -/
def handleLogsDelete (segs : List String) (logs : List LogEntry) :
    Option (List LogEntry × Nat) :=
  match dispatchLogsDelete segs, segs with
  | some .byTs, [x] => some (deleteByTimestamp x logs)
  | some .byGroup, [x] =>
      match deleteByGroup x logs with
      | .ok r => some r
      | .error _ => none
  | some .byGroupAndDate, [x, y] => some (deleteByGroupAndDate x y logs)
  | _, _ => none

/-!
## Claim-side predicates

These definitions follow the wording of the spec/claims, not the code;
they exist to be compared with the code-side definitions above. -/

/-- Claim side, C2: the `type` of the entry is a lifecycle marker. -/
def lifecycleType (l : LogEntry) : Bool :=
  l.type == some "group-create" || l.type == some "group-delete"

/-- Claim side, C2: the `group` of the entry equals the given name
case-insensitively (an absent group matches nothing). -/
def groupMatches (groupName : String) (l : LogEntry) : Bool :=
  match l.group with
  | some s => lowerStr s == lowerStr groupName
  | none => false

/-- Claim side, C2 as stated: remove exactly the entries of the given
date whose type is a lifecycle marker, or whose group matches the name
case-insensitively, or whose group is absent or equals "unknowngroup"
case-insensitively. -/
def removeClaimC2 (groupName date : String) (l : LogEntry) : Bool :=
  l.date == some date &&
    (lifecycleType l || groupMatches groupName l ||
      l.group == none || groupMatches "unknowngroup" l)

/-- Claim side, C2 as amended: like `removeClaimC2`, but the orphan
condition also covers an empty-string `group` (which JavaScript treats
as falsy, exactly like an absent one). -/
def removeAmendedC2 (groupName date : String) (l : LogEntry) : Bool :=
  l.date == some date &&
    (lifecycleType l || groupMatches groupName l ||
      !strTruthy l.group || groupMatches "unknowngroup" l)

/-!
## Helper lemmas
-/

theorem loadData_publishOp (s : St) : loadData (publishOp s) = loadDraft s := rfl

theorem loadDraft_publishOp (s : St) : loadDraft (publishOp s) = loadDraft s := by
  cases h : s.draftFile <;> simp [loadDraft, loadData, publishOp, h]

theorem loadData_discardOp (s : St) : loadData (discardOp s) = loadData s := rfl

theorem loadDraft_discardOp (s : St) : loadDraft (discardOp s) = loadData s := rfl

/-- A falsy body is not an object, so field access yields `undefined`. -/
theorem jsTruthy_false_no_fields (body : Json) (h : jsTruthy body = false)
    (k : String) : getField body k = none := by
  cases body <;> first | rfl | simp [jsTruthy] at h

/-- Splitting the length of a list over a filter and its complement. -/
theorem filter_length_split (p : α → Bool) (l : List α) :
    (l.filter p).length + (l.filter (fun a => !p a)).length = l.length := by
  induction l with
  | nil => simp
  | cons a t ih => cases h : p a <;> simp [List.filter_cons, h] <;> omega

/-- The `ts` identities of a filtered logs sequence form a sublist of
the original ones. -/
theorem tsKeys_filter_sublist (p : LogEntry → Bool) (logs : List LogEntry) :
    List.Sublist (tsKeys (logs.filter p)) (tsKeys logs) :=
  (List.filter_sublist logs).map _

/-- A successful `POST /api/save` stores the body as the draft file. -/
theorem saveRoute_success_draft (body : Json) (s : St)
    (h : (saveRoute body s).2 = true) :
    (saveRoute body s).1.draftFile = .json body := by
  unfold saveRoute at h ⊢
  split_ifs at h ⊢ with hc
  rfl

/-!
## C1: draft-status and structural equality
-/

/-- Published document of the C1 counterexample. -/
def dPubC1 : Json :=
  .obj [("groups", .arr []), ("logs", .arr [.obj [("ts", .num 1), ("group", .str "A")]])]

/-- Draft document of the C1 counterexample: the same single log entry
with its two keys in the opposite insertion order. -/
def dDraftC1 : Json :=
  .obj [("groups", .arr []), ("logs", .arr [.obj [("group", .str "A"), ("ts", .num 1)]])]

/-- State of the C1 counterexample. -/
def sC1 : St := { dataFile := .json dPubC1, draftFile := .json dDraftC1 }

/-- Counterexample to C1: draft and published hold structurally equal
documents (same groups and logs with equal field values, with the keys of
the log entry merely permuted), yet `status().hasChanges` is true — so
`hasChanges` is not equivalent to structural inequality and is not
invariant under key-insertion-order permutations. -/
theorem c1_counterexample :
    structEq (loadDraft sC1) (loadData sC1) = true ∧ hasChanges sC1 = true := by
  constructor
  · simp [sC1, loadData, loadDraft, dPubC1, dDraftC1, structEq, structEqList,
      fieldsIncl, keyVal]
  · simp [hasChanges, sC1, loadData, loadDraft, dPubC1, dDraftC1, jsonStr,
      jsonStrList, jsonStrFields]
    decide

/-- Amended C1: `status().hasChanges` compares the serialized strings
of the two documents, so it is false immediately after `publish()` or
`discard()` and false whenever the two documents are equal as parsed
(same key order), but it is not invariant under key-insertion-order
permutations of structurally identical documents. -/
theorem c1_draft_status_amended :
    (∀ s, hasChanges (publishOp s) = false) ∧
    (∀ s, hasChanges (discardOp s) = false) ∧
    (∀ s, loadData s = loadDraft s → hasChanges s = false) := by
  refine ⟨?_, ?_, ?_⟩
  · intro s; simp [hasChanges, loadData_publishOp, loadDraft_publishOp]
  · intro s; simp [hasChanges, loadData_discardOp, loadDraft_discardOp]
  · intro s h; simp [hasChanges, h]

/-- Witness for C1: the amended theorem applied to concrete states. -/
theorem c1_witness :
    hasChanges (publishOp sC1) = false ∧
    hasChanges { dataFile := .json emptySnapshot, draftFile := .json emptySnapshot } = false :=
  ⟨c1_draft_status_amended.1 sC1,
   c1_draft_status_amended.2.2 { dataFile := .json emptySnapshot, draftFile := .json emptySnapshot } rfl⟩

/-!
## C4: atomicity of the save primitives
-/

/-- Counterexample to C4: `saveData` does not write to a temporary
location and rename it into place; its file-system trace is not of that
shape even on the empty snapshot. -/
theorem c4_counterexample :
    ¬ atomicWritePattern dataFilePath (saveDataTrace emptySnapshot) := by
  rintro ⟨tmp, c, hne, h⟩
  simp [saveDataTrace] at h

/-- Amended C4: `saveData`/`saveDraft` perform exactly one direct
`writeFileSync` of the serialized document onto the final path — no
temporary location, no rename — and that single write fully replaces any
prior content. -/
theorem c4_save_direct_write :
    ∀ doc fs0,
      applyTrace fs0 (saveDataTrace doc) dataFilePath = some (jsonStr doc) ∧
      applyTrace fs0 (saveDraftTrace doc) draftFilePath = some (jsonStr doc) ∧
      ∀ a ∈ saveDataTrace doc ++ saveDraftTrace doc, ∀ src dst, a ≠ .rename src dst := by
  intro doc fs0
  refine ⟨?_, ?_, ?_⟩
  · simp [saveDataTrace, applyTrace, applyAction]
  · simp [saveDraftTrace, applyTrace, applyAction]
  · intro a ha src dst
    simp [saveDataTrace, saveDraftTrace] at ha
    rcases ha with h | h <;> subst h <;> simp

/-- Witness for C4: the amended theorem applied at a concrete document and
initial file system. -/
theorem c4_witness :
    applyTrace (fun _ => none) (saveDataTrace (.arr [])) dataFilePath =
      some (jsonStr (.arr [])) ∧
    FsAction.write dataFilePath (jsonStr (.arr [])) ≠ .rename "a" "b" :=
  ⟨(c4_save_direct_write (.arr []) (fun _ => none)).1,
   (c4_save_direct_write (.arr []) (fun _ => none)).2.2 _ (by simp [saveDataTrace]) "a" "b"⟩

/-!
## C5: draft loading fallback
-/

/-- Published document of the C5 counterexample. -/
def pubC5 : Json := .obj [("groups", .arr [.str "A"]), ("logs", .arr [])]

/-- State of the C5 counterexample: a draft file that exists but is
empty (content `""`, which `JSON.parse` cannot parse), next to a
non-empty published document. -/
def sC5 : St := { dataFile := .json pubC5, draftFile := .empty }

/-- Counterexample to C5: with an empty (hence unparseable) draft file,
`loadDraft()` returns the empty Snapshot, not `loadPublished()`. -/
theorem c5_counterexample :
    loadDraft sC5 = emptySnapshot ∧ loadData sC5 = pubC5 ∧
    loadDraft sC5 ≠ loadData sC5 := by
  refine ⟨rfl, rfl, ?_⟩
  show emptySnapshot ≠ pubC5
  simp [emptySnapshot, pubC5]

/-- Amended C5: when the draft file is missing/unreadable or holds
non-empty unparseable content, `loadDraft()` falls back to
`loadPublished()`; but when the draft file exists with empty content,
the `raw || default` short-circuit makes it return the empty Snapshot
regardless of the published document.  It never raises. -/
theorem c5_draft_fallback_amended :
    (∀ s, s.draftFile = .absent → loadDraft s = loadData s) ∧
    (∀ s, s.draftFile = .invalid → loadDraft s = loadData s) ∧
    (∀ s, s.draftFile = .empty → loadDraft s = emptySnapshot) := by
  refine ⟨?_, ?_, ?_⟩ <;> intro s h <;> simp [loadDraft, h]

/-- Witness for C5: the amended theorem applied to concrete states. -/
theorem c5_witness :
    loadDraft { dataFile := .json pubC5, draftFile := .absent } =
      loadData { dataFile := .json pubC5, draftFile := .absent } ∧
    loadDraft { dataFile := .json pubC5, draftFile := .invalid } =
      loadData { dataFile := .json pubC5, draftFile := .invalid } :=
  ⟨c5_draft_fallback_amended.1 _ rfl, c5_draft_fallback_amended.2.1 _ rfl⟩

/-!
## C6: publish makes published equal the draft, idempotently
-/

/-- Claim C6: after `publish()`, the published document is (exactly, hence
structurally) equal to the draft at the time of publish, and a second
`publish()` with no intervening edit does not change the state at
all. -/
theorem c6_publish_idempotent :
    ∀ s, loadData (publishOp s) = loadDraft s ∧ publishOp (publishOp s) = publishOp s := by
  intro s
  refine ⟨rfl, ?_⟩
  conv_lhs => rw [publishOp]
  rw [loadDraft_publishOp]
  rfl

/-- Witness for C6: the theorem applied to a concrete state. -/
theorem c6_witness :
    loadData (publishOp { dataFile := .json emptySnapshot, draftFile := .json pubC5 }) =
      loadDraft { dataFile := .json emptySnapshot, draftFile := .json pubC5 } :=
  (c6_publish_idempotent { dataFile := .json emptySnapshot, draftFile := .json pubC5 }).1

/-!
## C7: deletion by timestamp
-/

/-- Claim C7: `deleteByTimestamp` removes exactly the entries whose `ts`,
normalized to a string, equals the given identifier (so a numeric `ts`
matches its string form) and returns the number removed; under the
uniqueness invariant it removes at most one entry, and for an identifier
matching no entry it removes none and leaves the logs unchanged. -/
theorem c7_delete_by_timestamp :
    (∀ ts logs, (deleteByTimestamp ts logs).1 = logs.filter (fun l => tsString l.ts != ts) ∧
        (deleteByTimestamp ts logs).2 = (logs.filter (fun l => tsString l.ts == ts)).length) ∧
    (∀ ts logs, TsDistinct logs → (deleteByTimestamp ts logs).2 ≤ 1) ∧
    (∀ ts logs, (∀ l ∈ logs, tsString l.ts ≠ ts) → deleteByTimestamp ts logs = (logs, 0)) := by
  have hcount : ∀ ts logs, (deleteByTimestamp ts logs).2 =
      (logs.filter (fun l => tsString l.ts == ts)).length := by
    intro ts logs
    have hs := filter_length_split (fun l => tsString l.ts == ts) logs
    have hb : logs.filter (fun l => tsString l.ts != ts) =
        logs.filter (fun l => !(tsString l.ts == ts)) := rfl
    simp only [deleteByTimestamp, hb]
    omega
  refine ⟨fun ts logs => ⟨rfl, hcount ts logs⟩, ?_, ?_⟩
  · intro ts logs hnd
    rw [hcount ts logs]
    induction logs with
    | nil => simp
    | cons a t ih =>
        rw [TsDistinct, tsKeys, List.map_cons, List.nodup_cons] at hnd
        obtain ⟨hna, hnd⟩ := hnd
        by_cases hh : tsString a.ts = ts
        · have hnil : t.filter (fun l => tsString l.ts == ts) = [] := by
            rw [List.filter_eq_nil_iff]
            intro l hl
            simp only [beq_iff_eq]
            intro heq
            exact hna (by rw [hh, ← heq]; exact List.mem_map_of_mem _ hl)
          simp [List.filter_cons, hh, hnil]
        · simp only [List.filter_cons, beq_iff_eq, hh, if_false]
          exact ih hnd
  · intro ts logs h
    have hk : logs.filter (fun l => tsString l.ts != ts) = logs :=
      List.filter_eq_self.mpr (by intro l hl; simpa using h l hl)
    simp [deleteByTimestamp, hk]

/-- Witness for C7: no-op on an unknown identifier, numeric `ts` matched by
its string form, and the at-most-one bound under uniqueness. -/
theorem c7_witness :
    deleteByTimestamp "99" [{ ts := some (.num 1) }] = ([{ ts := some (.num 1) }], 0) ∧
    (deleteByTimestamp "1" [{ ts := some (.num 1) }, { ts := some (.str "2") }]).2 ≤ 1 :=
  ⟨c7_delete_by_timestamp.2.2 "99" _ (by decide),
   c7_delete_by_timestamp.2.1 "1" _ (by decide)⟩

/-!
## C3: deletion by group faults on a missing `group`
-/

/-- An entry with no `group` field, as produced by `POST /api/logs`
(which only requires `date` and `type`). -/
def eC3 : LogEntry := { ts := some (.num 1), date := some "2024-01-01", type := some "signin" }

/-- Claim C3: contrary to the claim, `deleteByGroup` faults on a logs sequence
containing an entry that lacks a `group` field (the unguarded
`log.group.toLowerCase()` throws); on entries that do carry a group it
removes case-insensitive matches as described. -/
theorem c3_missing_group_faults :
    deleteByGroup "A" [eC3] = .error () ∧
    deleteByGroup "a" [{ eC3 with group := some "A" }] = .ok ([], 1) := by
  constructor <;> rfl

/-!
## C8: saveDraft validation
-/

/-- Claim C8: `POST /api/save` fails with the 400 ValidationError exactly when
the `groups` or `logs` field of the body is not an array (a falsy body has no
fields, so it is subsumed); on failure the stored draft is untouched,
and on success the draft file is fully replaced by the submitted
snapshot. -/
theorem c8_save_validation :
    (∀ body s, (saveRoute body s).2 = false ↔
        ¬(isArrayOpt (getField body "groups") = true ∧
          isArrayOpt (getField body "logs") = true)) ∧
    (∀ body s, (saveRoute body s).2 = false → (saveRoute body s).1 = s) ∧
    (∀ body s, (saveRoute body s).2 = true → (saveRoute body s).1.draftFile = .json body) := by
  refine ⟨?_, ?_, ?_⟩
  · intro body s
    by_cases hb : jsTruthy body
    · by_cases hg : isArrayOpt (getField body "groups") <;>
        by_cases hl : isArrayOpt (getField body "logs") <;>
        simp [saveRoute, hb, hg, hl]
    · have h1 : getField body "groups" = none :=
        jsTruthy_false_no_fields body (by simpa using hb) "groups"
      simp [saveRoute, hb, h1, isArrayOpt]
  · intro body s
    unfold saveRoute
    split <;> simp
  · intro body s
    unfold saveRoute
    split <;> simp

/-- Witness for C8: a valid body replaces the draft; an invalid body (here
a bare number) is rejected with the state unchanged. -/
theorem c8_witness :
    (saveRoute emptySnapshot { dataFile := .absent, draftFile := .absent }).1.draftFile =
      .json emptySnapshot ∧
    (saveRoute (.num 3) { dataFile := .absent, draftFile := .absent }).1 =
      { dataFile := .absent, draftFile := .absent } :=
  ⟨c8_save_validation.2.2 emptySnapshot { dataFile := .absent, draftFile := .absent } rfl,
   c8_save_validation.2.1 (.num 3) { dataFile := .absent, draftFile := .absent } rfl⟩

/-!
## C2: cascaded deletion by group and date
-/

theorem lowerStr_unknowngroup : lowerStr "unknowngroup" = "unknowngroup" := rfl

theorem groupMatches_eq_optLower (g : String) (l : LogEntry) :
    groupMatches g l = (optLower l.group == some (lowerStr g)) := by
  cases hg : l.group <;> simp [groupMatches, optLower, hg]

theorem groupMatches_unknown_eq (l : LogEntry) :
    groupMatches "unknowngroup" l = (optLower l.group == some "unknowngroup") := by
  cases hg : l.group <;> simp [groupMatches, optLower, lowerStr_unknowngroup, hg]

/-- The sequential branch structure of the `:groupName/:date` filter
callback agrees with the flat disjunction of the amended claim. -/
theorem gadKeep_eq_not_removeAmended (g d : String) (l : LogEntry) :
    gadKeep g d l = !removeAmendedC2 g d l := by
  unfold gadKeep removeAmendedC2
  rw [groupMatches_eq_optLower g l, groupMatches_unknown_eq l]
  cases hA : (l.date == some d) <;>
    cases hB1 : (l.type == some "group-create") <;>
    cases hB2 : (l.type == some "group-delete") <;>
    cases hC : strTruthy l.group <;>
    cases hD : (optLower l.group == some (lowerStr g)) <;>
    cases hE : (optLower l.group == some "unknowngroup") <;>
    simp [lifecycleType, bne, hA, hB1, hB2, hC, hD, hE]

/-- The cascade-scenario entries from the spec. -/
def c2e1 : LogEntry :=
  { ts := some (.num 1), date := some "2024-01-01", group := some "A", type := some "signin" }
def c2e2 : LogEntry :=
  { ts := some (.num 2), date := some "2024-01-01", group := some "X", type := some "group-create" }
def c2e3 : LogEntry :=
  { ts := some (.num 3), date := some "2024-01-01", group := some "B", type := some "signin" }
def c2e4 : LogEntry :=
  { ts := some (.num 4), date := some "2024-01-02", group := some "A", type := some "signin" }

/-- An entry whose `group` is present but the empty string. -/
def c2orphan : LogEntry :=
  { ts := some (.num 9), date := some "2024-01-01", group := some "", type := some "signin" }

/-- Counterexample to C2: the removal predicate of the claim keeps an entry
whose `group` is the empty string (it is neither absent, nor
"unknowngroup", nor equal to the group name), but the handler deletes it
— the empty string is falsy, so the entry falls into the orphan-cleanup
branch. -/
theorem c2_counterexample :
    removeClaimC2 "A" "2024-01-01" c2orphan = false ∧
    deleteByGroupAndDate "A" "2024-01-01" [c2orphan] = ([], 1) := by
  constructor <;> rfl

/-- Amended C2: among entries with the matching date,
`deleteByGroupAndDate` removes exactly those whose `type` is a lifecycle
marker, or whose `group` matches the name case-insensitively, or whose
`group` is absent **or empty** or equals "unknowngroup"
case-insensitively, and returns the number removed; the concrete
four-entry scenario behaves exactly as stated. -/
theorem c2_cascade_amended :
    (∀ g d logs,
        (deleteByGroupAndDate g d logs).1 =
          logs.filter (fun l => !removeAmendedC2 g d l) ∧
        (deleteByGroupAndDate g d logs).2 =
          (logs.filter (fun l => removeAmendedC2 g d l)).length) ∧
    deleteByGroupAndDate "A" "2024-01-01" [c2e1, c2e2, c2e3, c2e4] = ([c2e3, c2e4], 2) := by
  constructor
  · intro g d logs
    have hf : logs.filter (gadKeep g d) = logs.filter (fun l => !removeAmendedC2 g d l) :=
      List.filter_congr (fun l _ => gadKeep_eq_not_removeAmended g d l)
    refine ⟨?_, ?_⟩
    · simpa [deleteByGroupAndDate] using hf
    · have hs := filter_length_split (fun l => removeAmendedC2 g d l) logs
      have h2 : (deleteByGroupAndDate g d logs).2 =
          logs.length - (logs.filter (fun l => !removeAmendedC2 g d l)).length := by
        simp [deleteByGroupAndDate, hf]
      omega
  · rfl

/-- Witness for C2: the amended characterization applied to the concrete
scenario. -/
theorem c2_witness :
    (deleteByGroupAndDate "A" "2024-01-01" [c2e1, c2e2, c2e3, c2e4]).1 =
      [c2e1, c2e2, c2e3, c2e4].filter (fun l => !removeAmendedC2 "A" "2024-01-01" l) :=
  (c2_cascade_amended.1 "A" "2024-01-01" [c2e1, c2e2, c2e3, c2e4]).1

/-!
## C9: uniqueness of `ts` under the operations
-/

/-- The entry of the C9 counterexample. -/
def e9 : LogEntry := { ts := some (.str "1"), date := some "2024-01-01", type := some "signin" }

/-- Counterexample to C9: `append` performs no uniqueness check, so
appending a valid entry whose `ts` is already present succeeds and
breaks the pairwise-distinctness of `ts`. -/
theorem c9_counterexample :
    TsDistinct [e9] ∧ appendLog e9 [e9] = .ok [e9, e9] ∧ ¬ TsDistinct [e9, e9] := by
  refine ⟨by decide, rfl, by decide⟩

/-- Amended C9: the three deletion operations, `publish` and `discard`
preserve `ts`-uniqueness unconditionally; `append` preserves it only
when the normalized `ts` of the appended entry is not already present, and
`saveDraft` yields a unique-`ts` draft only when the submitted snapshot
itself has pairwise-distinct `ts` values (neither operation checks). -/
theorem c9_ts_uniqueness_amended :
    (∀ ts logs, TsDistinct logs → TsDistinct (deleteByTimestamp ts logs).1) ∧
    (∀ g logs r, deleteByGroup g logs = .ok r → TsDistinct logs → TsDistinct r.1) ∧
    (∀ g d logs, TsDistinct logs → TsDistinct (deleteByGroupAndDate g d logs).1) ∧
    (∀ e logs r, appendLog e logs = .ok r → TsDistinct logs →
        tsString e.ts ∉ tsKeys logs → TsDistinct r) ∧
    (∀ body s, (saveRoute body s).2 = true → TsDistinctJson body →
        TsDistinctJson (loadDraft (saveRoute body s).1)) ∧
    (∀ s, TsDistinctJson (loadDraft s) → TsDistinctJson (loadData (publishOp s))) ∧
    (∀ s, TsDistinctJson (loadData s) → TsDistinctJson (loadDraft (discardOp s))) := by
  refine ⟨?_, ?_, ?_, ?_, ?_, ?_, ?_⟩
  · intro ts logs h
    exact (tsKeys_filter_sublist _ logs).nodup h
  · intro g logs r h hnd
    unfold deleteByGroup at h
    split at h
    · cases h
    · cases h
      exact (tsKeys_filter_sublist _ logs).nodup hnd
  · intro g d logs h
    exact (tsKeys_filter_sublist _ logs).nodup h
  · intro e logs r h hnd hfresh
    unfold appendLog at h
    split at h
    · cases h
    · cases h
      have hk : tsKeys (logs ++ [e]) = tsKeys logs ++ [tsString e.ts] := by
        simp [tsKeys]
      rw [TsDistinct, hk, List.nodup_append]
      refine ⟨hnd, List.nodup_singleton _, ?_⟩
      intro x hx hx2
      rw [List.mem_singleton] at hx2
      exact hfresh (hx2 ▸ hx)
  · intro body s h hb
    have hd := saveRoute_success_draft body s h
    simp [loadDraft, hd]
    exact hb
  · intro s h
    rw [loadData_publishOp]
    exact h
  · intro s h
    rw [loadDraft_discardOp]
    exact h

/-- Witness for C9: the amended preservation statements applied to concrete
inputs. -/
theorem c9_witness :
    TsDistinct (deleteByTimestamp "1" [e9]).1 ∧
    TsDistinct (deleteByGroupAndDate "A" "2024-01-01" [e9]).1 :=
  ⟨c9_ts_uniqueness_amended.1 "1" [e9] (by decide),
   c9_ts_uniqueness_amended.2.2.1 "A" "2024-01-01" [e9] (by decide)⟩

/-!
## C10: route shadowing of `DELETE /api/logs/:groupName`
-/

/-- Claim C10: every single-segment `DELETE /api/logs/<x>` request dispatches
to the `:ts` handler registered first, so it is handled entirely by
timestamp deletion; the `:groupName` handler is selected for no request
at all (two-segment paths go to `:groupName/:date`). -/
theorem c10_route_shadowing :
    (∀ x logs, handleLogsDelete [x] logs = some (deleteByTimestamp x logs)) ∧
    (∀ segs, dispatchLogsDelete segs ≠ some .byGroup) ∧
    (∀ x y logs, handleLogsDelete [x, y] logs = some (deleteByGroupAndDate x y logs)) := by
  refine ⟨?_, ?_, ?_⟩
  · intro x logs; rfl
  · intro segs
    rcases segs with _ | ⟨a, _ | ⟨b, _ | ⟨c, t⟩⟩⟩
    · simp [dispatchLogsDelete, logsDeleteRoutes, List.find?]
    · simp [dispatchLogsDelete, logsDeleteRoutes, List.find?]
    · simp [dispatchLogsDelete, logsDeleteRoutes, List.find?]
    · have h1 : ((1 : Nat) == (a :: b :: c :: t).length) = false := by
        simp [List.length_cons]
      have h2 : ((2 : Nat) == (a :: b :: c :: t).length) = false := by
        simp [List.length_cons]
      simp [dispatchLogsDelete, logsDeleteRoutes, List.find?, h1, h2]
  · intro x y logs; rfl

/-- Witness for C10: the dispatch theorem applied to concrete requests. -/
theorem c10_witness :
    handleLogsDelete ["A"] [e9] = some (deleteByTimestamp "A" [e9]) ∧
    dispatchLogsDelete ["A", "2024-01-01", "zzz"] ≠ some .byGroup :=
  ⟨c10_route_shadowing.1 "A" [e9], c10_route_shadowing.2.1 ["A", "2024-01-01", "zzz"]⟩

end TrackerLive
